import Mathlib

/-!
Shallow embedding of the customer-feedback portal (src/database.py, src/main.py).

Conventions of the embedding:
* SQLAlchemy rows become Lean structures; the three tables are lists inside `DB`,
  together with the next auto-increment primary key for each table.
* Timestamps (`datetime`) are integers (seconds); `utcnow()` at a request is the
  request's `now` argument; `timedelta(days=d)` is `86400 * d`.
* The str-valued enums (`UserRole`, `Status`, `Category`, `Priority`) are stored as
  their string values, exactly as the code stores them in `Column(String)` fields;
  comparisons such as `status == Status.CLOSED` compare against the string value.
* A handler returning an HTTP response becomes a function returning `HResult`
  (and the new `DB` when it writes).  `RedirectResponse(url)` is `.redirect url`
  (status codes 302/307 are not modelled, no claim mentions them);
  `templates.TemplateResponse(name, ctx)` is `.template name`; an uncaught Python
  exception escaping the handler is `.raised msg`.
* Session state holds at most the user id (`sess : Option Nat`); Python truthiness
  of `request.session.get("user_id")` makes the id 0 act like an absent id.
* The seeding randomness (`random.choice`, `random.randint`, bcrypt salts) is a
  `SeedRand` oracle passed to `startup_event`.
-/

/-- Row of the `users` table (database.py, class User). -/
structure User where
  id : Nat
  username : String
  password_hash : String
  role : String
deriving DecidableEq, Repr

/-- Row of the `feedbacks` table (database.py, class Feedback). -/
structure Feedback where
  id : Nat
  title : String
  description : String
  category : String
  priority : String
  status : String
  created_at : Int
  closed_at : Option Int
  user_id : Nat
deriving DecidableEq, Repr

/-- Row of the `responses` table (database.py, class Response). -/
structure Response where
  id : Nat
  content : String
  created_at : Int
  feedback_id : Nat
  user_id : Nat
deriving DecidableEq, Repr

/-- The persistent store: the three tables plus the next auto-increment id of each. -/
structure DB where
  users : List User
  feedbacks : List Feedback
  responses : List Response
  nextUserId : Nat
  nextFeedbackId : Nat
  nextResponseId : Nat
deriving DecidableEq, Repr

def DB.empty : DB := ⟨[], [], [], 1, 1, 1⟩

def dfltFeedback : Feedback := ⟨0, "", "", "", "", "", 0, none, 0⟩

/-- Result of a request handler seen from the transport layer. -/
inductive HResult where
  | redirect (url : String)
  | template (view : String)
  | json (body : String)
  | raised (exc : String)
deriving DecidableEq, Repr

/-- main.py `get_current_user`: resolve the session user id against the users table.
Python truthiness: `if not user_id` treats the id 0 like an absent id. -/
def get_current_user (db : DB) (sess : Option Nat) : Option User :=
  match sess with
  | none => none
  | some uid => if uid == 0 then none else db.users.find? (fun u => u.id == uid)

/-- main.py `require_role`. -/
def require_role (user : Option User) (roles : List String) : Bool :=
  match user with
  | none => false
  | some u => roles.contains u.role

/-- main.py `health_check` (GET /health). -/
def health_check : HResult := .json "ok"

/-- main.py `index` (GET /). -/
def index (db : DB) (sess : Option Nat) : HResult :=
  match get_current_user db sess with
  | none => .redirect "/login"
  | some u => if u.role == "admin" then .redirect "/dashboard" else .redirect "/feedback"

/-- main.py `login_page` (GET /login). -/
def login_page : HResult := .template "login.html"

/-- main.py `logout` (GET /logout): clears the session, redirects to login. -/
def logout : HResult := .redirect "/login"

/-- main.py `new_feedback_page` (GET /feedback/new). -/
def new_feedback_page (db : DB) (sess : Option Nat) : HResult :=
  match get_current_user db sess with
  | none => .redirect "/login"
  | some u =>
      if u.role == "customer" || u.role == "support" then .template "submit_feedback.html"
      else .redirect "/feedback"

/-- main.py `submit_feedback` (POST /feedback/new).  Note: the only gate is
authentication; there is no role check in this handler (the role check exists
only on the GET form page).  `created_at` comes from the column default
`datetime.datetime.utcnow`; `closed_at` stays NULL; status is `Status.NEW`. -/
def submit_feedback (db : DB) (sess : Option Nat)
    (title category description priority : String) (now : Int) : HResult × DB :=
  match get_current_user db sess with
  | none => (.redirect "/login", db)
  | some u =>
      let fb : Feedback :=
        ⟨db.nextFeedbackId, title, description, category, priority, "new", now, none, u.id⟩
      (.redirect "/feedback",
        { db with feedbacks := db.feedbacks ++ [fb], nextFeedbackId := db.nextFeedbackId + 1 })

/-- Python truthiness of an optional string: `None` and `""` are falsy. -/
def strTruthy : Option String → Bool
  | none => false
  | some s => !(s == "")

/-- main.py `feedback_list`, lines 192-198: the query the handler runs.
`if category and category != "all"` filters only when the parameter is truthy
(present and non-empty) and differs from "all"; likewise for `status_filter`;
then `ORDER BY created_at DESC`. -/
def feedback_list_query (db : DB) (category status_filter : Option String) : List Feedback :=
  let q := db.feedbacks
  let q := if strTruthy category && !(category.getD "" == "all")
           then q.filter (fun f => f.category == category.getD "") else q
  let q := if strTruthy status_filter && !(status_filter.getD "" == "all")
           then q.filter (fun f => f.status == status_filter.getD "") else q
  q.mergeSort (fun a b => decide (b.created_at ≤ a.created_at))

/-- main.py `feedback_list` (GET /feedback): transport-level behavior. -/
def feedback_list (db : DB) (sess : Option Nat) (_category _status_filter : Option String) : HResult :=
  match get_current_user db sess with
  | none => .redirect "/login"
  | some _ => .template "feedback_list.html"

/-- main.py `feedback_detail` (GET /feedback/id). -/
def feedback_detail (db : DB) (sess : Option Nat) (fid : Nat) : HResult :=
  match get_current_user db sess with
  | none => .redirect "/login"
  | some _ =>
      match db.feedbacks.find? (fun f => f.id == fid) with
      | none => .redirect "/feedback"
      | some _ => .template "feedback_detail.html"

/-- main.py `add_response` (POST /feedback/id/response).  The role gate merges
the no-user and wrong-role cases into one redirect to the detail url; on the
authorized path the Response is inserted with the path feedback id, with no
check that such a Feedback exists.  `created_at` comes from the column default. -/
def add_response (db : DB) (sess : Option Nat) (fid : Nat) (content : String) (now : Int) :
    HResult × DB :=
  match get_current_user db sess with
  | some u =>
      if u.role == "support" || u.role == "admin" then
        let r : Response := ⟨db.nextResponseId, content, now, fid, u.id⟩
        (.redirect s!"/feedback/{fid}",
          { db with responses := db.responses ++ [r], nextResponseId := db.nextResponseId + 1 })
      else (.redirect s!"/feedback/{fid}", db)
  | none => (.redirect s!"/feedback/{fid}", db)

/-- Replace the first element satisfying `p` by its image under `g`
(SQLAlchemy `query.filter(...).first()` followed by in-place mutation and commit). -/
def updateFirst (p : α → Bool) (g : α → α) : List α → List α
  | [] => []
  | x :: xs => if p x then g x :: xs else x :: updateFirst p g xs

/-- The message of the exception raised at main.py line 246: inside
`update_status` the name `status` is the form parameter (a `str`), shadowing the
`fastapi.status` module, so evaluating `status.HTTP_302_FOUND` raises. -/
def attrError : String := "AttributeError: str object has no attribute HTTP_302_FOUND"

/-- main.py `update_status` (POST /feedback/id/status).  On the authorized path
the first Feedback with the given id (if any) gets `status := st`, and
`closed_at := now` when `st == "closed"`; the commit succeeds, after which
building the final RedirectResponse evaluates `status.HTTP_302_FOUND` on the
form string and raises AttributeError, which escapes the handler. -/
def update_status (db : DB) (sess : Option Nat) (fid : Nat) (st : String) (now : Int) :
    HResult × DB :=
  match get_current_user db sess with
  | some u =>
      if u.role == "support" || u.role == "admin" then
        let fbs := updateFirst (fun f => f.id == fid)
          (fun f =>
            { f with
              status := st
              closed_at := if st == "closed" then some now else f.closed_at })
          db.feedbacks
        (.raised attrError, { db with feedbacks := fbs })
      else (.redirect s!"/feedback/{fid}", db)
  | none => (.redirect s!"/feedback/{fid}", db)

/-- main.py `dashboard`, line 254: `db.query(Feedback).count()`. -/
def total_feedback (db : DB) : Nat := db.feedbacks.length

/-- main.py `dashboard`, line 255: count of rows with status new or in-review. -/
def open_items (db : DB) : Nat :=
  (db.feedbacks.filter (fun f => f.status == "new" || f.status == "in-review")).length

/-- Floor of a rational as an integer (via Euclidean division, exact for den > 0). -/
def ratFloor (x : Rat) : Int := Int.ediv x.num x.den

/-- Round-half-to-even to the nearest integer, the rounding of Python `round`. -/
def roundHalfEven (x : Rat) : Int :=
  let n := ratFloor x
  let r := x - n
  if r < 1/2 then n
  else if 1/2 < r then n + 1
  else if n % 2 = 0 then n else n + 1

/-- Python `round(x, 1)`. -/
def round1 (x : Rat) : Rat := (roundHalfEven (x * 10) : Int) / 10

/-- main.py `dashboard`, lines 258-262: average resolution time.  The rows
scanned are ALL rows with status closed; the sum skips rows whose `closed_at`
is NULL (datetimes are always truthy, NULL is falsy), but the denominator is
the length of the full closed list. -/
def avg_resolution_hours (feedbacks : List Feedback) : Rat :=
  let closed := feedbacks.filter (fun f => f.status == "closed")
  if closed.isEmpty then 0
  else
    let total : Rat :=
      ((closed.filter (fun f => f.closed_at.isSome)).map
        (fun f => ((f.closed_at.getD 0 - f.created_at : Int) : Rat))).sum
    round1 (total / (closed.length : Rat) / 3600)

/-- main.py `dashboard` (GET /dashboard): transport-level behavior. -/
def dashboard (db : DB) (sess : Option Nat) : HResult :=
  match get_current_user db sess with
  | none => .redirect "/login"
  | some u => if u.role == "admin" then .template "dashboard.html" else .redirect "/feedback"

/-- Randomness oracle for the startup seeding: the bcrypt salts (`pwh i` is the
hash of "password" for the i-th user), `random.choice(list(Category))`,
`random.choice(list(Priority))`, `random.choice(list(Status))`,
`random.randint(0, 30)` for each of the 10 feedbacks, and the
`random.choice(feedbacks)` index for each of the 5 responses. -/
structure SeedRand where
  pwh : Nat → String
  cat : Nat → String
  prio : Nat → String
  stat : Nat → String
  days : Nat → Nat
  respTarget : Nat → Fin 10

/-- The fixed feedback titles of the seed (main.py line 69). -/
def seedTitles : List String :=
  ["Login issue", "Great feature", "Slow loading", "Color scheme", "Bug in report",
   "Suggestion for UI", "API error", "Export data", "Mobile view broken", "Thanks for help"]

/-- The fixed feedback descriptions of the seed (main.py line 70). -/
def seedDescriptions : List String :=
  ["I cannot login with my account.", "Love the new dashboard!", "Page takes 5s to load.",
   "Can we have dark mode?", "Report shows wrong numbers.", "Move button to left.",
   "500 error on /api/v1", "Need CSV export.", "Menu overlaps on phone.",
   "Support was very fast."]

/-- One iteration of the response-seeding loop (main.py lines 93-103), folded over
the indices 0..4: pick the feedback object at the chosen position, append a
Response carrying its id, and bump that feedback from `new` to `in-review`. -/
def seedRespFold (rnd : SeedRand) (now : Int) (supportId rid0 : Nat) :
    List Feedback × List Response → List Nat → List Feedback × List Response
  | acc, [] => acc
  | acc, i :: rest =>
      let fbs := acc.1
      let t := (rnd.respTarget i).val
      let fb := fbs.getD t dfltFeedback
      let resp : Response :=
        ⟨rid0 + i, s!"We are looking into this. (Response {i + 1})", now, fb.id, supportId⟩
      let fbs2 := fbs.set t (if fb.status == "new" then { fb with status := "in-review" } else fb)
      seedRespFold rnd now supportId rid0 (fbs2, acc.2 ++ [resp]) rest

/-- The three demo users inserted by the seed (main.py lines 59-63); `cid` is the
auto-increment id handed to the first of them. -/
def seedUsers (rnd : SeedRand) (cid : Nat) : List User :=
  [⟨cid, "customer", rnd.pwh 0, "customer"⟩,
   ⟨cid + 1, "support", rnd.pwh 1, "support"⟩,
   ⟨cid + 2, "admin", rnd.pwh 2, "admin"⟩]

/-- The ten demo feedbacks inserted by the seed (main.py lines 76-86), all owned
by the customer user `cid`, with `closed_at` left NULL. -/
def seedFbs (rnd : SeedRand) (now : Int) (fid0 cid : Nat) : List Feedback :=
  (List.range 10).map (fun i =>
    ⟨fid0 + i, seedTitles.getD i "", seedDescriptions.getD i "", rnd.cat i, rnd.prio i,
     rnd.stat i, now - 86400 * (rnd.days i : Int), none, cid⟩)

/-- main.py `startup_event` (lines 54-108): if the users table is empty, insert the
three demo users, the ten feedbacks owned by the customer user (created in the
past by the chosen number of days, `closed_at` NULL), and the five responses
authored by the support user; otherwise do nothing. -/
def startup_event (db : DB) (rnd : SeedRand) (now : Int) : DB :=
  if db.users.isEmpty then
    let st := seedRespFold rnd now (db.nextUserId + 1) db.nextResponseId
      (seedFbs rnd now db.nextFeedbackId db.nextUserId, []) (List.range 5)
    { users := db.users ++ seedUsers rnd db.nextUserId
      feedbacks := db.feedbacks ++ st.1
      responses := db.responses ++ st.2
      nextUserId := db.nextUserId + 3
      nextFeedbackId := db.nextFeedbackId + 10
      nextResponseId := db.nextResponseId + 5 }
  else db

/-- One inbound HTTP request, with the data the transport delivers to the handler. -/
inductive Req where
  | healthA
  | indexA (sess : Option Nat)
  | loginPageA
  | loginPostA (username password : String)
  | logoutA
  | newFeedbackPageA (sess : Option Nat)
  | submitFeedbackA (sess : Option Nat) (title category description priority : String) (now : Int)
  | feedbackListA (sess : Option Nat) (category status_filter : Option String)
  | feedbackDetailA (sess : Option Nat) (fid : Nat)
  | addResponseA (sess : Option Nat) (fid : Nat) (content : String) (now : Int)
  | updateStatusA (sess : Option Nat) (fid : Nat) (st : String) (now : Int)
  | dashboardA (sess : Option Nat)

/-- Effect of one request on the store.  `login` only reads the users table and
writes the session, `logout` only clears the session, and the GET handlers only
query, so all of them leave the store unchanged; the three writing handlers are
`submit_feedback`, `add_response` and `update_status`. -/
def stepDB (db : DB) : Req → DB
  | .submitFeedbackA sess t c d p now => (submit_feedback db sess t c d p now).2
  | .addResponseA sess fid content now => (add_response db sess fid content now).2
  | .updateStatusA sess fid st now => (update_status db sess fid st now).2
  | _ => db

/-- Ghost history: ids of feedbacks whose status was at some point set to
"closed" by an (authorized, successful) `update_status` request. -/
def stepGhost (db : DB) (g : List Nat) : Req → List Nat
  | .updateStatusA sess fid st _ =>
      match get_current_user db sess with
      | some u =>
          if (u.role == "support" || u.role == "admin")
              && db.feedbacks.any (fun f => f.id == fid) && st == "closed"
          then fid :: g else g
      | none => g
  | _ => g

/-- Reachable stores, with the ghost closure history alongside: the store right
after first-boot seeding, and anything one request away from a reachable store. -/
inductive GReachable : DB → List Nat → Prop
  | seed (rnd : SeedRand) (now : Int) : GReachable (startup_event DB.empty rnd now) []
  | step {db : DB} {g : List Nat} (a : Req) :
      GReachable db g → GReachable (stepDB db a) (stepGhost db g a)

/-- Invariant carried through every reachable store: a feedback's `closed_at`
is set exactly when its id is in the ghost closure history; feedback ids stay
below the auto-increment counter and are pairwise distinct; the history only
mentions existing feedback ids. -/
def GInv (db : DB) (g : List Nat) : Prop :=
  (∀ fb ∈ db.feedbacks, (fb.closed_at ≠ none ↔ fb.id ∈ g)) ∧
  (∀ fb ∈ db.feedbacks, fb.id < db.nextFeedbackId) ∧
  (db.feedbacks.map (fun f => f.id)).Nodup ∧
  (∀ i ∈ g, i ∈ db.feedbacks.map (fun f => f.id))

/-- Definition following the spec words for the dashboard average (section 4.3):
"over Feedback rows with status `closed` AND both created_at and closed_at
present, compute mean of (closed_at − created_at) in hours, rounded to 1
decimal place; 0 if no such rows".  Kept separate from `avg_resolution_hours`
(which is translated from the code) so the two can be compared. -/
def specAvgResolutionHours (feedbacks : List Feedback) : Rat :=
  let rows := feedbacks.filter (fun f => f.status == "closed" && f.closed_at.isSome)
  if rows.isEmpty then 0
  else
    let total : Rat :=
      (rows.map (fun f => ((f.closed_at.getD 0 - f.created_at : Int) : Rat))).sum
    round1 (total / ((rows.length : Rat) * 3600))

/-- The filter condition `feedback_list` applies for the category parameter. -/
def matchesCat (category : Option String) (f : Feedback) : Bool :=
  match category with
  | none => true
  | some c => if !(c == "") && !(c == "all") then f.category == c else true

/-- The filter condition `feedback_list` applies for the status parameter. -/
def matchesStat (status_filter : Option String) (f : Feedback) : Bool :=
  match status_filter with
  | none => true
  | some c => if !(c == "") && !(c == "all") then f.status == c else true

/-! ## Concrete inputs used to evaluate the embedding -/

/-- A fixed seeding randomness: every feedback gets category `bug`, priority
`low`, status `new`, created today; every response targets the first feedback. -/
def rnd0 : SeedRand :=
  ⟨fun _ => "x", fun _ => "bug", fun _ => "low", fun _ => "new", fun _ => 0, fun _ => 0⟩

/-- Like `rnd0` but every seeded feedback gets status `closed`. -/
def rndClosed : SeedRand :=
  ⟨fun _ => "x", fun _ => "bug", fun _ => "low", fun _ => "closed", fun _ => 0, fun _ => 0⟩

/-- A store with one support user and one fresh feedback. -/
def dbC7 : DB :=
  ⟨[⟨2, "support", "x", "support"⟩], [⟨1, "T", "D", "bug", "low", "new", 0, none, 1⟩], [], 3, 2, 1⟩

/-- A store with a single user row (used to exercise the seeding skip). -/
def dbOneUser : DB := ⟨[⟨1, "customer", "x", "customer"⟩], [], [], 2, 1, 1⟩

/-! ## Helper lemmas about `updateFirst` and the seeding fold -/

theorem updateFirst_of_none (p : α → Bool) (g : α → α) :
    ∀ l : List α, (∀ x ∈ l, p x = false) → updateFirst p g l = l := by
  intro l h
  induction l with
  | nil => rfl
  | cons x xs ih =>
      simp only [updateFirst, h x (by simp)]
      simp only [Bool.false_eq_true, if_false, List.cons.injEq, true_and]
      exact ih (fun y hy => h y (by simp [hy]))

theorem updateFirst_append (p : α → Bool) (g : α → α) (pre : List α) (m : α) (post : List α)
    (hpre : ∀ x ∈ pre, p x = false) (hm : p m = true) :
    updateFirst p g (pre ++ m :: post) = pre ++ g m :: post := by
  induction pre with
  | nil => simp [updateFirst, hm]
  | cons x xs ih =>
      have hx : p x = false := hpre x (by simp)
      simp only [List.cons_append, updateFirst, hx, Bool.false_eq_true, if_false,
        List.cons.injEq, true_and]
      exact ih (fun y hy => hpre y (by simp [hy]))

theorem forall₂_updateFirst {R : α → α → Prop} (p : α → Bool) (g : α → α)
    (hrefl : ∀ a, R a a) (hg : ∀ a, R a (g a)) :
    ∀ l : List α, List.Forall₂ R l (updateFirst p g l) := by
  intro l
  induction l with
  | nil => exact List.Forall₂.nil
  | cons x xs ih =>
      have hr : List.Forall₂ R xs xs := by
        clear ih
        induction xs with
        | nil => exact List.Forall₂.nil
        | cons y ys ihy => exact List.Forall₂.cons (hrefl y) ihy
      by_cases hx : p x = true
      · simp only [updateFirst, hx, if_true]
        exact List.Forall₂.cons (hg x) hr
      · simp only [updateFirst, hx, if_false]
        exact List.Forall₂.cons (hrefl x) ih

theorem any_decomp (p : α → Bool) :
    ∀ l : List α, l.any p = true →
      ∃ pre m post, l = pre ++ m :: post ∧ p m = true ∧ ∀ x ∈ pre, p x = false := by
  intro l h
  induction l with
  | nil => simp at h
  | cons x xs ih =>
      by_cases hx : p x = true
      · exact ⟨[], x, xs, by simp, hx, by simp⟩
      · have hxs : xs.any p = true := by
          rcases List.any_eq_true.1 h with ⟨y, hy, hp⟩
          rcases List.mem_cons.1 hy with hy | hy
          · subst hy; exact absurd hp hx
          · exact List.any_eq_true.2 ⟨y, hy, hp⟩
        rcases ih hxs with ⟨pre, m, post, heq, hm, hpre⟩
        refine ⟨x :: pre, m, post, by simp [heq], hm, fun y hy => ?_⟩
        rcases List.mem_cons.1 hy with hy | hy
        · subst hy; simpa using hx
        · exact hpre y hy

/-- The per-element relation established by the seeding response loop: a
feedback is either untouched or bumped from `new` to `in-review`. -/
def statusBump (a b : Feedback) : Prop :=
  b = a ∨ (b = { a with status := "in-review" } ∧ a.status = "new")

theorem statusBump.refl (a : Feedback) : statusBump a a := Or.inl rfl

theorem statusBump.trans {a b c : Feedback} (h1 : statusBump a b) (h2 : statusBump b c) :
    statusBump a c := by
  rcases h1 with h1 | ⟨h1, h1s⟩
  · rwa [h1] at h2
  · rcases h2 with h2 | ⟨h2, h2s⟩
    · rw [h2, h1]; exact Or.inr ⟨rfl, h1s⟩
    · rw [h1] at h2s; simp at h2s

theorem statusBump.fields {a b : Feedback} (h : statusBump a b) :
    b.id = a.id ∧ b.title = a.title ∧ b.description = a.description ∧
    b.category = a.category ∧ b.priority = a.priority ∧
    b.created_at = a.created_at ∧ b.closed_at = a.closed_at ∧ b.user_id = a.user_id := by
  rcases h with h | ⟨h, _⟩ <;> subst h <;> simp

theorem forall₂_bump_trans :
    ∀ {l1 l2 l3 : List Feedback}, List.Forall₂ statusBump l1 l2 →
      List.Forall₂ statusBump l2 l3 → List.Forall₂ statusBump l1 l3 := by
  intro l1 l2 l3 h1 h2
  induction h1 generalizing l3 with
  | nil => cases h2; exact List.Forall₂.nil
  | cons hab h ih =>
      cases h2 with
      | cons hbc h2' => exact List.Forall₂.cons (hab.trans hbc) (ih h2')

theorem forall₂_bump_refl (l : List Feedback) : List.Forall₂ statusBump l l := by
  induction l with
  | nil => exact List.Forall₂.nil
  | cons x xs ih => exact List.Forall₂.cons (statusBump.refl x) ih

theorem forall₂_bump_set (l : List Feedback) (t : Nat) (d : Feedback) :
    List.Forall₂ statusBump l
      (l.set t (if (l.getD t d).status == "new"
                then { l.getD t d with status := "in-review" } else l.getD t d)) := by
  induction l generalizing t with
  | nil => simp only [List.set_nil]; exact List.Forall₂.nil
  | cons x xs ih =>
      cases t with
      | zero =>
          simp only [List.set_cons_zero, List.getD_cons_zero]
          refine List.Forall₂.cons ?_ (forall₂_bump_refl xs)
          by_cases hx : x.status = "new"
          · simp only [hx, beq_self_eq_true, if_true]; exact Or.inr ⟨rfl, hx⟩
          · simp only [beq_eq_false_iff_ne.2 hx, Bool.false_eq_true, if_false]
            exact statusBump.refl x
      | succ t' =>
          simp only [List.set_cons_succ, List.getD_cons_succ]
          exact List.Forall₂.cons (statusBump.refl x) (ih t')

theorem forall₂_bump_map {β : Type} (ff : Feedback → β)
    (hf : ∀ a b, statusBump a b → ff b = ff a) :
    ∀ {l1 l2 : List Feedback}, List.Forall₂ statusBump l1 l2 → l2.map ff = l1.map ff := by
  intro l1 l2 h
  induction h with
  | nil => rfl
  | cons hab _ ih => simp [ih, hf _ _ hab]

theorem seedRespFold_bump (rnd : SeedRand) (now : Int) (sid rid : Nat) :
    ∀ (l : List Nat) (fbs : List Feedback) (rs : List Response),
      List.Forall₂ statusBump fbs (seedRespFold rnd now sid rid (fbs, rs) l).1 := by
  intro l
  induction l with
  | nil => intro fbs rs; exact forall₂_bump_refl fbs
  | cons i rest ih =>
      intro fbs rs
      simp only [seedRespFold]
      exact forall₂_bump_trans
        (forall₂_bump_set fbs (rnd.respTarget i).val dfltFeedback) (ih _ _)

theorem seedRespFold_resps_len (rnd : SeedRand) (now : Int) (sid rid : Nat) :
    ∀ (l : List Nat) (fbs : List Feedback) (rs : List Response),
      (seedRespFold rnd now sid rid (fbs, rs) l).2.length = rs.length + l.length := by
  intro l
  induction l with
  | nil => intro fbs rs; simp [seedRespFold]
  | cons i rest ih =>
      intro fbs rs
      simp only [seedRespFold]
      rw [ih]
      simp
      omega

theorem seedRespFold_resps_mem (rnd : SeedRand) (now : Int) (sid rid : Nat) :
    ∀ (l : List Nat) (fbs : List Feedback) (rs : List Response), fbs.length = 10 →
      ∀ r ∈ (seedRespFold rnd now sid rid (fbs, rs) l).2,
        r ∈ rs ∨ r.feedback_id ∈ fbs.map (fun f => f.id) := by
  intro l
  induction l with
  | nil => intro fbs rs _ r hr; exact Or.inl hr
  | cons i rest ih =>
      intro fbs rs hlen r hr
      simp only [seedRespFold] at hr
      have hmap : (fbs.set (rnd.respTarget i).val
          (if (fbs.getD (rnd.respTarget i).val dfltFeedback).status == "new"
           then { fbs.getD (rnd.respTarget i).val dfltFeedback with status := "in-review" }
           else fbs.getD (rnd.respTarget i).val dfltFeedback)).map (fun f => f.id)
          = fbs.map (fun f => f.id) :=
        forall₂_bump_map (fun f => f.id) (fun a b h => (h.fields).1)
          (forall₂_bump_set fbs (rnd.respTarget i).val dfltFeedback)
      have hlen2 : (fbs.set (rnd.respTarget i).val
          (if (fbs.getD (rnd.respTarget i).val dfltFeedback).status == "new"
           then { fbs.getD (rnd.respTarget i).val dfltFeedback with status := "in-review" }
           else fbs.getD (rnd.respTarget i).val dfltFeedback)).length = 10 := by
        simpa using hlen
      rcases ih _ _ hlen2 r hr with h | h
      · rcases List.mem_append.1 h with h | h
        · exact Or.inl h
        · right
          have hr1 : r.feedback_id = (fbs.getD (rnd.respTarget i).val dfltFeedback).id := by
            rcases List.mem_singleton.1 h with h
            rw [h]
          rw [hr1]
          have ht : (rnd.respTarget i).val < fbs.length := by rw [hlen]; exact (rnd.respTarget i).isLt
          rw [List.getD_eq_getElem _ _ ht]
          exact List.mem_map_of_mem _ (List.getElem_mem ht)
      · right; rwa [hmap] at h

/-- First-run check: seeding skips entirely when a user row exists. -/
theorem startup_skip (db : DB) (rnd : SeedRand) (now : Int) (h : db.users ≠ []) :
    startup_event db rnd now = db := by
  rw [startup_event, if_neg]
  simp [List.isEmpty_iff, h]

theorem seedFbs_length (rnd : SeedRand) (now : Int) (fid0 cid : Nat) :
    (seedFbs rnd now fid0 cid).length = 10 := by
  simp [seedFbs]

theorem seedFbs_user_id (rnd : SeedRand) (now : Int) (fid0 cid : Nat) :
    ∀ f ∈ seedFbs rnd now fid0 cid, f.user_id = cid := by
  intro f hf
  rcases List.mem_map.1 hf with ⟨i, _, hi⟩
  rw [← hi]

theorem seedFbs_closed_at (rnd : SeedRand) (now : Int) (fid0 cid : Nat) :
    ∀ f ∈ seedFbs rnd now fid0 cid, f.closed_at = none := by
  intro f hf
  rcases List.mem_map.1 hf with ⟨i, _, hi⟩
  rw [← hi]

theorem seedFbs_ids (rnd : SeedRand) (now : Int) (fid0 cid : Nat) :
    (seedFbs rnd now fid0 cid).map (fun f => f.id) = (List.range 10).map (fun i => fid0 + i) := by
  simp [seedFbs]

/-- Stats of the store right after a first-boot seeding, for any randomness. -/
theorem seed_stats (rnd : SeedRand) (now : Int) :
    (startup_event DB.empty rnd now).users.length = 3 ∧
    (startup_event DB.empty rnd now).users.map (fun u => u.role)
      = ["customer", "support", "admin"] ∧
    (startup_event DB.empty rnd now).feedbacks.length = 10 ∧
    (∀ f ∈ (startup_event DB.empty rnd now).feedbacks, f.user_id = 1) ∧
    (startup_event DB.empty rnd now).responses.length = 5 := by
  have hfb : (startup_event DB.empty rnd now).feedbacks
      = (seedRespFold rnd now 2 1 (seedFbs rnd now 1 1, []) (List.range 5)).1 := by
    simp [startup_event, DB.empty, seedUsers]
  have hbump := seedRespFold_bump rnd now 2 1 (List.range 5) (seedFbs rnd now 1 1) []
  refine ⟨by simp [startup_event, DB.empty, seedUsers], by simp [startup_event, DB.empty, seedUsers], ?_, ?_, ?_⟩
  · rw [hfb, ← hbump.length_eq, seedFbs_length]
  · intro f hf
    rw [hfb] at hf
    have hmap := forall₂_bump_map (fun f => f.user_id) (fun a b h => (h.fields).2.2.2.2.2.2.2) hbump
    have : f.user_id ∈ (seedRespFold rnd now 2 1 (seedFbs rnd now 1 1, []) (List.range 5)).1.map
        (fun f => f.user_id) := List.mem_map_of_mem _ hf
    rw [hmap] at this
    rcases List.mem_map.1 this with ⟨g, hg, hgid⟩
    rw [← hgid, seedFbs_user_id rnd now 1 1 g hg]
  · have := seedRespFold_resps_len rnd now 2 1 (List.range 5) (seedFbs rnd now 1 1) []
    simp [startup_event, DB.empty, seedUsers, this]

/-! ## Claims -/

/-- C1: the claim says every support/admin POST /feedback/id/status completes
without propagating an exception and answers with a redirect.  The code instead
raises: inside `update_status` the form parameter `status` shadows the imported
`fastapi.status` module, so `status.HTTP_302_FOUND` on the final line raises
AttributeError for every authorized request, existing id or not (the status
change itself is committed first).  Evaluated here at a seeded store, for the
support user: the existing id 1 gets its status set but the handler raises, and
the missing id 999 leaves the store unchanged and still raises. -/
theorem C1_update_status_raises :
    (update_status (startup_event DB.empty rnd0 0) (some 2) 1 "in-review" 100).1
      = HResult.raised attrError ∧
    ((update_status (startup_event DB.empty rnd0 0) (some 2) 1 "in-review" 100).2.feedbacks.getD 0
        dfltFeedback).status = "in-review" ∧
    (update_status (startup_event DB.empty rnd0 0) (some 2) 999 "closed" 100).1
      = HResult.raised attrError ∧
    (update_status (startup_event DB.empty rnd0 0) (some 2) 999 "closed" 100).2
      = startup_event DB.empty rnd0 0 := by decide

/-- C2: the claim says a POST /feedback/new by a user whose role is neither
customer nor support creates no Feedback row.  The handler checks only that a
user is logged in, so the seeded admin (id 3, role admin) does create a row:
the feedback count grows from 10 to 11 and the new row is owned by user 3. -/
theorem C2_admin_submit_creates_row :
    get_current_user (startup_event DB.empty rnd0 0) (some 3)
      = some ⟨3, "admin", "x", "admin"⟩ ∧
    (submit_feedback (startup_event DB.empty rnd0 0) (some 3) "t" "bug" "d" "low" 50).2.feedbacks.length
      = 11 ∧
    ((submit_feedback (startup_event DB.empty rnd0 0) (some 3) "t" "bug" "d" "low" 50).2.feedbacks.getD
        10 dfltFeedback).user_id = 3 ∧
    (submit_feedback (startup_event DB.empty rnd0 0) (some 3) "t" "bug" "d" "low" 50).1
      = HResult.redirect "/feedback" := by decide

/-- C5 counterexample: the claim says every handler of the route table answers
an unauthenticated request with a redirect to the login view, naming the two
POST mutation routes in particular.  But `add_response` and `update_status`
merge the no-user case into their role gate and redirect to the feedback detail
url, not to /login. -/
theorem C5_counterexample :
    (add_response DB.empty none 1 "hello" 0).1 = HResult.redirect "/feedback/1" ∧
    (update_status DB.empty none 1 "closed" 0).1 = HResult.redirect "/feedback/1" ∧
    HResult.redirect "/feedback/1" ≠ HResult.redirect "/login" := by decide

/-- C5 (amended): with no resolved session user, `index`, `new_feedback_page`,
`submit_feedback`, `feedback_list`, `feedback_detail`, `dashboard` and `logout`
all redirect to the login view and leave the store unchanged, while
`add_response` and `update_status` instead redirect to the feedback detail view
(also leaving the store unchanged). -/
theorem C5_unauth_redirects (db : DB) (sess : Option Nat) (fid : Nat)
    (t c d p content st : String) (catq sfq : Option String) (now : Int)
    (h : get_current_user db sess = none) :
    index db sess = HResult.redirect "/login" ∧
    new_feedback_page db sess = HResult.redirect "/login" ∧
    submit_feedback db sess t c d p now = (HResult.redirect "/login", db) ∧
    feedback_list db sess catq sfq = HResult.redirect "/login" ∧
    feedback_detail db sess fid = HResult.redirect "/login" ∧
    dashboard db sess = HResult.redirect "/login" ∧
    logout = HResult.redirect "/login" ∧
    add_response db sess fid content now = (HResult.redirect s!"/feedback/{fid}", db) ∧
    update_status db sess fid st now = (HResult.redirect s!"/feedback/{fid}", db) := by
  simp [index, new_feedback_page, submit_feedback, feedback_list, feedback_detail,
    dashboard, logout, add_response, update_status, h]

theorem C5_unauth_redirects_witness :
    index DB.empty none = HResult.redirect "/login" ∧
    new_feedback_page DB.empty none = HResult.redirect "/login" ∧
    submit_feedback DB.empty none "t" "bug" "d" "low" 0 = (HResult.redirect "/login", DB.empty) ∧
    feedback_list DB.empty none none none = HResult.redirect "/login" ∧
    feedback_detail DB.empty none 1 = HResult.redirect "/login" ∧
    dashboard DB.empty none = HResult.redirect "/login" ∧
    logout = HResult.redirect "/login" ∧
    add_response DB.empty none 1 "c" 0 = (HResult.redirect s!"/feedback/{(1:Nat)}", DB.empty) ∧
    update_status DB.empty none 1 "closed" 0 = (HResult.redirect s!"/feedback/{(1:Nat)}", DB.empty) :=
  C5_unauth_redirects DB.empty none 1 "t" "bug" "d" "low" "c" "closed" none none 0 rfl

/-- C7: an authorized status update on an existing feedback row (here: the
unique row with the posted id, everything before it having a different id) sets
exactly the status field, sets `closed_at` to the request time when the posted
value is `closed` and keeps its prior value otherwise, and leaves every other
field of the row, every other row, every other table and the id counters
unchanged. -/
theorem C7_update_status_frame (db : DB) (sess : Option Nat) (u : User) (fid : Nat)
    (st : String) (now : Int) (pre post : List Feedback) (fb : Feedback)
    (hu : get_current_user db sess = some u)
    (hrole : u.role = "support" ∨ u.role = "admin")
    (hsplit : db.feedbacks = pre ++ fb :: post)
    (hpre : ∀ x ∈ pre, x.id ≠ fid)
    (hfb : fb.id = fid) :
    (update_status db sess fid st now).2
      = { db with feedbacks :=
            pre ++ { fb with
                     status := st
                     closed_at := if st == "closed" then some now else fb.closed_at } :: post } := by
  have hrole2 : (u.role == "support" || u.role == "admin") = true := by
    rcases hrole with h | h <;> simp [h]
  simp only [update_status, hu, hrole2, if_true]
  have hup := updateFirst_append (fun f => f.id == fid)
    (fun f => { f with
                status := st
                closed_at := if st == "closed" then some now else f.closed_at })
    pre fb post
    (fun x hx => beq_eq_false_iff_ne.2 (hpre x hx)) (by simp [hfb])
  rw [hsplit, hup]

theorem C7_update_status_frame_witness :
    (update_status
        (update_status (update_status dbC7 (some 2) 1 "in-review" 10).2 (some 2) 1 "closed" 20).2
        (some 2) 1 "in-review" 30).2
      = { (update_status (update_status dbC7 (some 2) 1 "in-review" 10).2 (some 2) 1 "closed" 20).2
          with feedbacks :=
            [] ++ { (⟨1, "T", "D", "bug", "low", "closed", 0, some 20, 1⟩ : Feedback) with
                    status := "in-review"
                    closed_at := if ("in-review" : String) == "closed" then some (30:Int)
                                 else (⟨1, "T", "D", "bug", "low", "closed", 0, some 20, 1⟩ : Feedback).closed_at }
              :: [] } :=
  C7_update_status_frame
    (update_status (update_status dbC7 (some 2) 1 "in-review" 10).2 (some 2) 1 "closed" 20).2
    (some 2) ⟨2, "support", "x", "support"⟩ 1 "in-review" 30 [] []
    ⟨1, "T", "D", "bug", "low", "closed", 0, some 20, 1⟩
    (by decide) (Or.inl rfl) (by decide) (by simp) (by decide)

/-- C4 counterexample: the claim takes the mean over exactly the closed rows
with both timestamps present.  The code sums over those rows but divides by the
count of ALL closed rows: with one closed row resolved in 3600 seconds and one
closed row whose `closed_at` is NULL (such rows are seeded), the code yields
0.5 where the claim demands 1.0. -/
theorem C4_counterexample :
    avg_resolution_hours
        [⟨1, "a", "d", "bug", "low", "closed", 0, some 3600, 1⟩,
         ⟨2, "b", "d", "bug", "low", "closed", 0, none, 1⟩] = 1/2 ∧
    specAvgResolutionHours
        [⟨1, "a", "d", "bug", "low", "closed", 0, some 3600, 1⟩,
         ⟨2, "b", "d", "bug", "low", "closed", 0, none, 1⟩] = 1 ∧
    ((1 : Rat)/2) ≠ 1 := by
  refine ⟨?_, ?_, by norm_num⟩ <;>
    norm_num [avg_resolution_hours, specAvgResolutionHours, round1, roundHalfEven, ratFloor,
      List.filter]

/-- C4 (amended): the denominator of the code's average is the number of ALL
rows with status closed (rows with a NULL `closed_at` contribute 0 to the sum).
Whenever every closed row has `closed_at` present — in particular over exactly
the rows the claim describes — the code's value coincides with the spec's mean;
with no closed rows it is 0. -/
theorem C4_avg_amended (fbs : List Feedback)
    (h : ∀ f ∈ fbs, f.status = "closed" → f.closed_at.isSome) :
    avg_resolution_hours fbs = specAvgResolutionHours fbs := by
  have h1 : List.filter (fun f => f.status == "closed" && f.closed_at.isSome) fbs
      = List.filter (fun f => f.status == "closed") fbs := by
    apply List.filter_congr
    intro f hf
    by_cases hs : f.status = "closed"
    · simp [hs, h f hf hs]
    · simp [beq_eq_false_iff_ne.2 hs]
  have h2 : List.filter (fun f => f.closed_at.isSome)
        (List.filter (fun f => f.status == "closed") fbs)
      = List.filter (fun f => f.status == "closed") fbs := by
    apply List.filter_eq_self.2
    intro f hf
    rcases List.mem_filter.1 hf with ⟨hmem, hcl⟩
    exact h f hmem (by simpa using hcl)
  simp only [avg_resolution_hours, specAvgResolutionHours, h1, h2]
  by_cases he : (List.filter (fun f => f.status == "closed") fbs).isEmpty
  · simp [he]
  · simp only [he, Bool.false_eq_true, if_false]
    rw [div_div]

theorem C4_avg_amended_witness :
    avg_resolution_hours [⟨1, "a", "d", "bug", "low", "closed", 0, some 3600, 1⟩]
      = specAvgResolutionHours [⟨1, "a", "d", "bug", "low", "closed", 0, some 3600, 1⟩] ∧
    avg_resolution_hours [⟨1, "a", "d", "bug", "low", "closed", 0, some 3600, 1⟩] = 1 ∧
    avg_resolution_hours [] = 0 :=
  ⟨C4_avg_amended _ (by decide),
   by norm_num [avg_resolution_hours, round1, roundHalfEven, ratFloor, List.filter],
   by norm_num [avg_resolution_hours]⟩

theorem filter_cat_step (l : List Feedback) (category : Option String) :
    (if strTruthy category && !(category.getD "" == "all")
     then l.filter (fun f => f.category == category.getD "") else l)
      = l.filter (fun f => matchesCat category f) := by
  rcases category with _ | c
  · simp [strTruthy, matchesCat]
  · by_cases hC : (!(c == "") && !(c == "all")) = true
    · rw [if_pos (by simpa [strTruthy] using hC)]
      apply List.filter_congr
      intro f _
      simp [matchesCat, hC]
    · rw [if_neg (by simpa [strTruthy] using hC)]
      have : ∀ f ∈ l, matchesCat (some c) f = true := by
        intro f _
        simp only [matchesCat, hC, Bool.false_eq_true, if_false]
      exact (List.filter_eq_self.2 this).symm

theorem filter_stat_step (l : List Feedback) (status_filter : Option String) :
    (if strTruthy status_filter && !(status_filter.getD "" == "all")
     then l.filter (fun f => f.status == status_filter.getD "") else l)
      = l.filter (fun f => matchesStat status_filter f) := by
  rcases status_filter with _ | c
  · simp [strTruthy, matchesStat]
  · by_cases hC : (!(c == "") && !(c == "all")) = true
    · rw [if_pos (by simpa [strTruthy] using hC)]
      apply List.filter_congr
      intro f _
      simp [matchesStat, hC]
    · rw [if_neg (by simpa [strTruthy] using hC)]
      have : ∀ f ∈ l, matchesStat (some c) f = true := by
        intro f _
        simp only [matchesStat, hC, Bool.false_eq_true, if_false]
      exact (List.filter_eq_self.2 this).symm

theorem feedback_list_query_eq_sort_filter (db : DB) (category status_filter : Option String) :
    feedback_list_query db category status_filter
      = ((db.feedbacks.filter (fun f => matchesCat category f && matchesStat status_filter f)).mergeSort
          (fun a b => decide (b.created_at ≤ a.created_at))) := by
  rw [feedback_list_query]
  rw [filter_cat_step, filter_stat_step, List.filter_filter]
  congr 1
  apply List.filter_congr
  intro f _
  exact Bool.and_comm _ _

/-- C8 counterexample: the claim says a present category parameter different
from "all" always filters.  An empty-string parameter (a `?category=` query) is
present and differs from "all", yet the code's truthiness test skips the
filter, returning rows of every category. -/
theorem C8_counterexample :
    feedback_list_query ⟨[], [⟨1, "T", "D", "bug", "low", "new", 0, none, 1⟩], [], 1, 2, 1⟩
        (some "") none
      = [⟨1, "T", "D", "bug", "low", "new", 0, none, 1⟩] ∧
    (⟨1, "T", "D", "bug", "low", "new", 0, none, 1⟩ : Feedback).category ≠ "" ∧
    ("" : String) ≠ "all" := by
  refine ⟨?_, by decide, by decide⟩
  rw [feedback_list_query_eq_sort_filter]
  simp [matchesCat, matchesStat, List.filter]

/-- C8 (amended): for every authenticated request, the feedback list is a
permutation of exactly the rows passing both filters — where a parameter that
is absent, EMPTY, or equal to "all" imposes no filter — arranged in
non-increasing `created_at` order; in particular category=bug with
status_filter=all yields exactly the bug rows irrespective of status. -/
theorem C8_list_filter_sort (db : DB) (category status_filter : Option String) :
    (feedback_list_query db category status_filter).Perm
      (db.feedbacks.filter (fun f => matchesCat category f && matchesStat status_filter f)) ∧
    List.Pairwise (fun a b => b.created_at ≤ a.created_at)
      (feedback_list_query db category status_filter) ∧
    (feedback_list_query db (some "bug") (some "all")).Perm
      (db.feedbacks.filter (fun f => f.category == "bug")) := by
  refine ⟨?_, ?_, ?_⟩
  · rw [feedback_list_query_eq_sort_filter]
    exact List.mergeSort_perm _ _
  · rw [feedback_list_query_eq_sort_filter]
    have hs := @List.sorted_mergeSort Feedback
      (fun a b : Feedback => decide (b.created_at ≤ a.created_at))
      (fun a b c hab hbc => by
        simp only [decide_eq_true_eq] at hab hbc ⊢
        exact le_trans hbc hab)
      (fun a b => by
        rcases le_total b.created_at a.created_at with h | h <;> simp [h])
      (db.feedbacks.filter (fun f => matchesCat category f && matchesStat status_filter f))
    exact hs.imp (fun h => by simpa using h)
  · have h := (feedback_list_query_eq_sort_filter db (some "bug") (some "all")) ▸
      List.mergeSort_perm
        (db.feedbacks.filter (fun f => matchesCat (some "bug") f && matchesStat (some "all") f))
        (fun a b => decide (b.created_at ≤ a.created_at))
    have h2 : db.feedbacks.filter
          (fun f => matchesCat (some "bug") f && matchesStat (some "all") f)
        = db.feedbacks.filter (fun f => f.category == "bug") := by
      apply List.filter_congr
      intro f _
      simp [matchesCat, matchesStat]
    rwa [h2] at h

theorem forall₂_refl_of {α : Type} {R : α → α → Prop} (h : ∀ a, R a a) :
    ∀ l : List α, List.Forall₂ R l l := by
  intro l
  induction l with
  | nil => exact List.Forall₂.nil
  | cons x xs ih => exact List.Forall₂.cons (h x) ih

/-- C6 counterexample: with the portal seeded (feedback ids 1..10), the support
user POSTs a response to the non-existent feedback id 999: the handler inserts
the Response row with feedback_id 999 anyway and no Feedback row gains that id,
so a Response that references no existing Feedback is reachable. -/
theorem C6_counterexample :
    ((add_response (startup_event DB.empty rnd0 0) (some 2) 999 "hi" 5).2.responses.getD 5
        ⟨0, "", 0, 0, 0⟩).feedback_id = 999 ∧
    (add_response (startup_event DB.empty rnd0 0) (some 2) 999 "hi" 5).2.responses.length = 6 ∧
    (startup_event DB.empty rnd0 0).feedbacks.all (fun f => !(f.id == 999)) = true ∧
    (add_response (startup_event DB.empty rnd0 0) (some 2) 999 "hi" 5).2.feedbacks
      = (startup_event DB.empty rnd0 0).feedbacks := by decide

/-- C6 (amended): every Response inserted by the seeding references a Feedback
row that exists at insertion time; but `add_response` performs no such check —
on its authorized path it appends a Response carrying whatever feedback id was
in the request path, whether or not a Feedback with that id exists (SQLite does
not enforce the foreign key here). -/
theorem C6_response_integrity :
    (∀ (rnd : SeedRand) (now : Int),
      ∀ r ∈ (startup_event DB.empty rnd now).responses,
        r.feedback_id ∈ (startup_event DB.empty rnd now).feedbacks.map (fun f => f.id)) ∧
    (∀ (db : DB) (sess : Option Nat) (u : User) (fid : Nat) (content : String) (now : Int),
      get_current_user db sess = some u → (u.role = "support" ∨ u.role = "admin") →
      (add_response db sess fid content now).2.responses
        = db.responses ++ [⟨db.nextResponseId, content, now, fid, u.id⟩]) := by
  constructor
  · intro rnd now r hr
    have hresp : (startup_event DB.empty rnd now).responses
        = (seedRespFold rnd now 2 1 (seedFbs rnd now 1 1, []) (List.range 5)).2 := by
      simp [startup_event, DB.empty]
    have hfb : (startup_event DB.empty rnd now).feedbacks
        = (seedRespFold rnd now 2 1 (seedFbs rnd now 1 1, []) (List.range 5)).1 := by
      simp [startup_event, DB.empty]
    rw [hresp] at hr
    rw [hfb]
    have hmem := seedRespFold_resps_mem rnd now 2 1 (List.range 5) (seedFbs rnd now 1 1) []
      (seedFbs_length rnd now 1 1) r hr
    rcases hmem with h | h
    · simp at h
    · have hbump := seedRespFold_bump rnd now 2 1 (List.range 5) (seedFbs rnd now 1 1) []
      have hmap := forall₂_bump_map (fun f => f.id) (fun a b hb => (hb.fields).1) hbump
      rwa [hmap]
  · intro db sess u fid content now hu hrole
    have hrole2 : (u.role == "support" || u.role == "admin") = true := by
      rcases hrole with h | h <;> simp [h]
    simp [add_response, hu, hrole2]

theorem C6_response_integrity_witness :
    ((startup_event DB.empty rnd0 0).responses.getD 0 ⟨0, "", 0, 0, 0⟩).feedback_id
      ∈ (startup_event DB.empty rnd0 0).feedbacks.map (fun f => f.id) ∧
    (add_response dbC7 (some 2) 1 "c" 5).2.responses
      = dbC7.responses ++ [⟨dbC7.nextResponseId, "c", 5, 1, 2⟩] :=
  ⟨C6_response_integrity.1 rnd0 0 _ (by decide),
   C6_response_integrity.2 dbC7 (some 2) ⟨2, "support", "x", "support"⟩ 1 "c" 5
     (by decide) (Or.inl rfl)⟩

/-- C9: the seeding is idempotent and pins the record counts: it is a no-op
whenever any User row exists; from an empty store it creates exactly 3 users
(one per role, in the order customer, support, admin), exactly 10 feedbacks all
owned by the customer user (id 1), and exactly 5 responses, with dashboard
totalFeedback equal to 10 right after the seed; and re-running the seed on a
freshly seeded store changes nothing. -/
theorem C9_seed_idempotent :
    (∀ (db : DB) (rnd : SeedRand) (now : Int), db.users ≠ [] → startup_event db rnd now = db) ∧
    (∀ (rnd : SeedRand) (now : Int),
      (startup_event DB.empty rnd now).users.length = 3 ∧
      (startup_event DB.empty rnd now).users.map (fun u => u.role)
        = ["customer", "support", "admin"] ∧
      (startup_event DB.empty rnd now).feedbacks.length = 10 ∧
      (∀ f ∈ (startup_event DB.empty rnd now).feedbacks, f.user_id = 1) ∧
      (startup_event DB.empty rnd now).responses.length = 5 ∧
      total_feedback (startup_event DB.empty rnd now) = 10) ∧
    (∀ (rnd rnd2 : SeedRand) (now now2 : Int),
      startup_event (startup_event DB.empty rnd now) rnd2 now2 = startup_event DB.empty rnd now) := by
  refine ⟨startup_skip, ?_, ?_⟩
  · intro rnd now
    have h := seed_stats rnd now
    exact ⟨h.1, h.2.1, h.2.2.1, h.2.2.2.1, h.2.2.2.2, h.2.2.1⟩
  · intro rnd rnd2 now now2
    apply startup_skip
    intro hc
    have h := (seed_stats rnd now).1
    rw [hc] at h
    simp at h

theorem C9_seed_idempotent_witness :
    startup_event dbOneUser rnd0 0 = dbOneUser ∧
    (startup_event DB.empty rnd0 0).responses.length = 5 :=
  ⟨C9_seed_idempotent.1 dbOneUser rnd0 0 (by decide),
   (C9_seed_idempotent.2.1 rnd0 0).2.2.2.2.1⟩

/-- C10: no route handler deletes anything: across any single request (hence any
sequence of requests) the users table is untouched, the feedback and response
tables only grow, every pre-existing feedback row keeps its identity and every
field except status and closed_at, and the old responses remain an unchanged
prefix of the new response table. -/
theorem C10_no_deletion (db : DB) (a : Req) :
    (stepDB db a).users = db.users ∧
    db.feedbacks.length ≤ (stepDB db a).feedbacks.length ∧
    db.responses.length ≤ (stepDB db a).responses.length ∧
    List.Forall₂ (fun x y : Feedback =>
        y.id = x.id ∧ y.title = x.title ∧ y.description = x.description ∧
        y.category = x.category ∧ y.priority = x.priority ∧
        y.created_at = x.created_at ∧ y.user_id = x.user_id)
      db.feedbacks ((stepDB db a).feedbacks.take db.feedbacks.length) ∧
    db.responses <+: (stepDB db a).responses := by
  have hrefl := @forall₂_refl_of Feedback (fun x y : Feedback =>
      y.id = x.id ∧ y.title = x.title ∧ y.description = x.description ∧
      y.category = x.category ∧ y.priority = x.priority ∧
      y.created_at = x.created_at ∧ y.user_id = x.user_id)
    (fun x => ⟨rfl, rfl, rfl, rfl, rfl, rfl, rfl⟩)
  have hsame : ∀ db2 : DB, db2 = db →
      (db2.users = db.users ∧ db.feedbacks.length ≤ db2.feedbacks.length ∧
       db.responses.length ≤ db2.responses.length ∧
       List.Forall₂ (fun x y : Feedback =>
          y.id = x.id ∧ y.title = x.title ∧ y.description = x.description ∧
          y.category = x.category ∧ y.priority = x.priority ∧
          y.created_at = x.created_at ∧ y.user_id = x.user_id)
        db.feedbacks (db2.feedbacks.take db.feedbacks.length) ∧
       db.responses <+: db2.responses) := by
    intro db2 h
    subst h
    exact ⟨rfl, le_refl _, le_refl _, by rw [List.take_length]; exact hrefl _,
      List.prefix_refl _⟩
  cases a with
  | submitFeedbackA sess t c d p now =>
      rcases hg : get_current_user db sess with _ | u
      · exact hsame _ (by simp [stepDB, submit_feedback, hg])
      · have hdb : (stepDB db (.submitFeedbackA sess t c d p now))
            = { db with
                feedbacks := db.feedbacks ++ [⟨db.nextFeedbackId, t, d, c, p, "new", now, none, u.id⟩]
                nextFeedbackId := db.nextFeedbackId + 1 } := by
          simp [stepDB, submit_feedback, hg]
        rw [hdb]
        refine ⟨rfl, by simp, le_refl _, ?_, List.prefix_refl _⟩
        simp only [List.take_left]
        exact hrefl _
  | addResponseA sess fid content now =>
      rcases hg : get_current_user db sess with _ | u
      · exact hsame _ (by simp [stepDB, add_response, hg])
      · by_cases hr : (u.role == "support" || u.role == "admin") = true
        · have hdb : (stepDB db (.addResponseA sess fid content now))
              = { db with
                  responses := db.responses ++ [⟨db.nextResponseId, content, now, fid, u.id⟩]
                  nextResponseId := db.nextResponseId + 1 } := by
            simp [stepDB, add_response, hg, hr]
          rw [hdb]
          refine ⟨rfl, le_refl _, by simp, ?_, List.prefix_append _ _⟩
          simp only [List.take_length]
          exact hrefl _
        · exact hsame _ (by simp [stepDB, add_response, hg, hr])
  | updateStatusA sess fid st now =>
      rcases hg : get_current_user db sess with _ | u
      · exact hsame _ (by simp [stepDB, update_status, hg])
      · by_cases hr : (u.role == "support" || u.role == "admin") = true
        · have hdb : (stepDB db (.updateStatusA sess fid st now))
              = { db with
                  feedbacks := updateFirst (fun f => f.id == fid)
                    (fun f => { f with
                                status := st
                                closed_at := if st == "closed" then some now else f.closed_at })
                    db.feedbacks } := by
            simp [stepDB, update_status, hg, hr]
          rw [hdb]
          have hf := @forall₂_updateFirst Feedback (fun x y : Feedback =>
              y.id = x.id ∧ y.title = x.title ∧ y.description = x.description ∧
              y.category = x.category ∧ y.priority = x.priority ∧
              y.created_at = x.created_at ∧ y.user_id = x.user_id)
            (fun f => f.id == fid)
            (fun f => { f with
                        status := st
                        closed_at := if st == "closed" then some now else f.closed_at })
            (fun x => ⟨rfl, rfl, rfl, rfl, rfl, rfl, rfl⟩)
            (fun x => ⟨rfl, rfl, rfl, rfl, rfl, rfl, rfl⟩)
            db.feedbacks
          have hlen : (updateFirst (fun f => f.id == fid)
              (fun f => { f with
                          status := st
                          closed_at := if st == "closed" then some now else f.closed_at })
              db.feedbacks).length = db.feedbacks.length := (hf.length_eq).symm
          refine ⟨rfl, by rw [hlen], le_refl _, ?_, List.prefix_refl _⟩
          rw [List.take_of_length_le (by rw [hlen])]
          exact hf
        · exact hsame _ (by simp [stepDB, update_status, hg, hr])
  | healthA => exact hsame _ rfl
  | indexA sess => exact hsame _ rfl
  | loginPageA => exact hsame _ rfl
  | loginPostA username password => exact hsame _ rfl
  | logoutA => exact hsame _ rfl
  | newFeedbackPageA sess => exact hsame _ rfl
  | feedbackListA sess category status_filter => exact hsame _ rfl
  | feedbackDetailA sess fid => exact hsame _ rfl
  | dashboardA sess => exact hsame _ rfl

theorem ginv_same (db db2 : DB) (g : List Nat) (hf : db2.feedbacks = db.feedbacks)
    (hn : db2.nextFeedbackId = db.nextFeedbackId) (ih : GInv db g) : GInv db2 g := by
  rw [GInv, hf, hn]
  exact ih

theorem ginv_submit (db : DB) (g : List Nat) (fb : Feedback)
    (hid : fb.id = db.nextFeedbackId) (hcl : fb.closed_at = none) (ih : GInv db g) :
    GInv { db with feedbacks := db.feedbacks ++ [fb], nextFeedbackId := db.nextFeedbackId + 1 } g := by
  obtain ⟨ih1, ih2, ih3, ih4⟩ := ih
  have hnotin : db.nextFeedbackId ∉ db.feedbacks.map (fun f => f.id) := by
    intro hmem
    rcases List.mem_map.1 hmem with ⟨y, hy, hyid⟩
    have := ih2 y hy
    omega
  refine ⟨?_, ?_, ?_, ?_⟩
  · intro x hx
    rcases List.mem_append.1 hx with hx | hx
    · exact ih1 x hx
    · have hx2 := List.mem_singleton.1 hx
      subst hx2
      refine iff_of_false (by simp [hcl]) ?_
      intro hg2
      exact hnotin (by rw [← hid]; exact ih4 _ hg2)
  · intro x hx
    rcases List.mem_append.1 hx with hx | hx
    · have := ih2 x hx; simp only []; omega
    · have hx2 := List.mem_singleton.1 hx
      subst hx2
      simp only []
      omega
  · simp only [List.map_append]
    refine List.Nodup.append ih3 (List.nodup_singleton _) ?_
    intro a ha hb
    have hb2 : a = fb.id := by simpa using hb
    apply hnotin
    rw [← hid, ← hb2]
    exact ha
  · intro i hi
    simp only [List.map_append]
    exact List.mem_append_left _ (ih4 i hi)

theorem ginv_seed (rnd : SeedRand) (now : Int) : GInv (startup_event DB.empty rnd now) [] := by
  have hfb : (startup_event DB.empty rnd now).feedbacks
      = (seedRespFold rnd now 2 1 (seedFbs rnd now 1 1, []) (List.range 5)).1 := by
    simp [startup_event, DB.empty]
  have hnext : (startup_event DB.empty rnd now).nextFeedbackId = 11 := by
    simp [startup_event, DB.empty]
  have hbump := seedRespFold_bump rnd now 2 1 (List.range 5) (seedFbs rnd now 1 1) []
  have hids : (seedRespFold rnd now 2 1 (seedFbs rnd now 1 1, []) (List.range 5)).1.map
        (fun f => f.id)
      = (List.range 10).map (fun i => 1 + i) := by
    rw [forall₂_bump_map (fun f => f.id) (fun a b hb => (hb.fields).1) hbump, seedFbs_ids]
  have hclosed : ∀ fb ∈ (seedRespFold rnd now 2 1 (seedFbs rnd now 1 1, []) (List.range 5)).1,
      fb.closed_at = none := by
    intro fb hm
    have h1 := forall₂_bump_map (fun f => f.closed_at)
      (fun a b hb => (hb.fields).2.2.2.2.2.2.1) hbump
    have h2 : fb.closed_at ∈ (seedFbs rnd now 1 1).map (fun f => f.closed_at) := by
      rw [← h1]
      exact List.mem_map_of_mem _ hm
    rcases List.mem_map.1 h2 with ⟨y, hy, hyy⟩
    rw [← hyy, seedFbs_closed_at rnd now 1 1 y hy]
  refine ⟨?_, ?_, ?_, ?_⟩
  · intro fb hm
    rw [hfb] at hm
    simp [hclosed fb hm]
  · intro fb hm
    rw [hfb] at hm
    rw [hnext]
    have h2 : fb.id ∈ (List.range 10).map (fun i => 1 + i) := by
      rw [← hids]
      exact List.mem_map_of_mem _ hm
    rcases List.mem_map.1 h2 with ⟨i, hi, hii⟩
    have := List.mem_range.1 hi
    omega
  · rw [hfb, hids]
    exact List.Nodup.map (fun a b h => by omega) (List.nodup_range 10)
  · intro i hi
    simp at hi

theorem ginv_update (db : DB) (g : List Nat) (fid : Nat) (st : String) (now : Int)
    (ih : GInv db g) :
    GInv { db with
           feedbacks := updateFirst (fun f => f.id == fid)
             (fun f => { f with
                         status := st
                         closed_at := if st == "closed" then some now else f.closed_at })
             db.feedbacks }
      (if db.feedbacks.any (fun f => f.id == fid) && st == "closed" then fid :: g else g) := by
  obtain ⟨ih1, ih2, ih3, ih4⟩ := ih
  by_cases hany : db.feedbacks.any (fun f => f.id == fid) = true
  · rcases any_decomp _ _ hany with ⟨pre, m, post, hsplit, hm, hpre⟩
    have hmid : m.id = fid := by simpa using hm
    have hpreid : ∀ x ∈ pre, x.id ≠ fid := by
      intro x hx
      simpa using hpre x hx
    have hup : updateFirst (fun f => f.id == fid)
        (fun f => { f with
                    status := st
                    closed_at := if st == "closed" then some now else f.closed_at })
        db.feedbacks
        = pre ++ { m with
                   status := st
                   closed_at := if st == "closed" then some now else m.closed_at } :: post := by
      rw [hsplit]
      exact updateFirst_append _ _ pre m post hpre hm
    have hmemold : ∀ x : Feedback, x ∈ pre ∨ x = m ∨ x ∈ post → x ∈ db.feedbacks := by
      intro x hx
      rw [hsplit]
      rcases hx with hx | hx | hx
      · exact List.mem_append_left _ hx
      · subst hx
        exact List.mem_append_right _ (List.mem_cons_self _ _)
      · exact List.mem_append_right _ (List.mem_cons_of_mem _ hx)
    have hids : (pre ++ { m with
                   status := st
                   closed_at := if st == "closed" then some now else m.closed_at } :: post).map
          (fun f => f.id)
        = db.feedbacks.map (fun f => f.id) := by
      rw [hsplit]
      simp [List.map_append]
    have hpostid : ∀ x ∈ post, x.id ≠ fid := by
      intro x hx heq
      have hnd := ih3
      rw [hsplit, List.map_append, List.map_cons] at hnd
      have hnd2 := (List.nodup_append.1 hnd).2.1
      have hx2 : x.id ∈ post.map (fun f => f.id) := List.mem_map_of_mem _ hx
      rw [heq, ← hmid] at hx2
      exact (List.nodup_cons.1 hnd2).1 hx2
    rw [hup]
    by_cases hcl : (st == "closed") = true
    · have hgh : (if ((db.feedbacks.any (fun f => f.id == fid)) && (st == "closed")) = true
          then fid :: g else g) = fid :: g := by
        simp [hany, hcl]
      rw [hgh]
      refine ⟨?_, ?_, ?_, ?_⟩
      · intro fb hfbm
        rcases List.mem_append.1 hfbm with hfb1 | hfb2
        · have hold := ih1 fb (hmemold fb (Or.inl hfb1))
          have hne := hpreid fb hfb1
          rw [List.mem_cons]
          constructor
          · intro h
            exact Or.inr (hold.1 h)
          · rintro (h | h)
            · exact absurd h hne
            · exact hold.2 h
        · rcases List.mem_cons.1 hfb2 with hfb3 | hfb3
          · subst hfb3
            refine iff_of_true (by simp [hcl]) ?_
            simp only [List.mem_cons]
            exact Or.inl hmid
          · have hold := ih1 fb (hmemold fb (Or.inr (Or.inr hfb3)))
            have hne := hpostid fb hfb3
            rw [List.mem_cons]
            constructor
            · intro h
              exact Or.inr (hold.1 h)
            · rintro (h | h)
              · exact absurd h hne
              · exact hold.2 h
      · intro fb hfbm
        rcases List.mem_append.1 hfbm with hfb1 | hfb2
        · exact ih2 fb (hmemold fb (Or.inl hfb1))
        · rcases List.mem_cons.1 hfb2 with hfb3 | hfb3
          · subst hfb3
            exact ih2 m (hmemold m (Or.inr (Or.inl rfl)))
          · exact ih2 fb (hmemold fb (Or.inr (Or.inr hfb3)))
      · show ((pre ++ { m with
                   status := st
                   closed_at := if st == "closed" then some now else m.closed_at } :: post).map
            (fun f => f.id)).Nodup
        rw [hids]
        exact ih3
      · intro i hi
        show i ∈ (pre ++ { m with
                   status := st
                   closed_at := if st == "closed" then some now else m.closed_at } :: post).map
            (fun f => f.id)
        rw [hids]
        rcases List.mem_cons.1 hi with hi2 | hi2
        · subst hi2
          rw [← hmid]
          exact List.mem_map_of_mem _ (hmemold m (Or.inr (Or.inl rfl)))
        · exact ih4 i hi2
    · have hclf : (st == "closed") = false := by
        simpa using hcl
      have hgh : (if ((db.feedbacks.any (fun f => f.id == fid)) && (st == "closed")) = true
          then fid :: g else g) = g := by
        simp [hclf]
      rw [hgh]
      refine ⟨?_, ?_, ?_, ?_⟩
      · intro fb hfbm
        rcases List.mem_append.1 hfbm with hfb1 | hfb2
        · exact ih1 fb (hmemold fb (Or.inl hfb1))
        · rcases List.mem_cons.1 hfb2 with hfb3 | hfb3
          · subst hfb3
            simp only [hclf, Bool.false_eq_true, if_false]
            exact ih1 m (hmemold m (Or.inr (Or.inl rfl)))
          · exact ih1 fb (hmemold fb (Or.inr (Or.inr hfb3)))
      · intro fb hfbm
        rcases List.mem_append.1 hfbm with hfb1 | hfb2
        · exact ih2 fb (hmemold fb (Or.inl hfb1))
        · rcases List.mem_cons.1 hfb2 with hfb3 | hfb3
          · subst hfb3
            exact ih2 m (hmemold m (Or.inr (Or.inl rfl)))
          · exact ih2 fb (hmemold fb (Or.inr (Or.inr hfb3)))
      · show ((pre ++ { m with
                   status := st
                   closed_at := if st == "closed" then some now else m.closed_at } :: post).map
            (fun f => f.id)).Nodup
        rw [hids]
        exact ih3
      · intro i hi
        show i ∈ (pre ++ { m with
                   status := st
                   closed_at := if st == "closed" then some now else m.closed_at } :: post).map
            (fun f => f.id)
        rw [hids]
        exact ih4 i hi
  · have hanyf : db.feedbacks.any (fun f => f.id == fid) = false := by
      simpa using hany
    have hnone : ∀ x ∈ db.feedbacks, (fun f => f.id == fid) x = false := by
      intro x hx
      have hne : x.id ≠ fid := by
        intro heq
        have hxt : (x.id == fid) = true := by simp [heq]
        have hat : db.feedbacks.any (fun f => f.id == fid) = true :=
          List.any_eq_true.2 ⟨x, hx, hxt⟩
        rw [hat] at hanyf
        exact absurd hanyf (by decide)
      exact beq_eq_false_iff_ne.2 hne
    have hgh : (if ((db.feedbacks.any (fun f => f.id == fid)) && (st == "closed")) = true
        then fid :: g else g) = g := by
      simp [hanyf]
    rw [updateFirst_of_none _ _ _ hnone, hgh]
    exact ginv_same db _ g rfl rfl ⟨ih1, ih2, ih3, ih4⟩

theorem ginv_step (db : DB) (g : List Nat) (a : Req) (ih : GInv db g) :
    GInv (stepDB db a) (stepGhost db g a) := by
  cases a with
  | submitFeedbackA sess t c d p now =>
      rcases hg : get_current_user db sess with _ | u
      · have h1 : stepDB db (.submitFeedbackA sess t c d p now) = db := by
          simp [stepDB, submit_feedback, hg]
        have h2 : stepGhost db g (.submitFeedbackA sess t c d p now) = g := rfl
        rw [h1, h2]
        exact ih
      · have h1 : stepDB db (.submitFeedbackA sess t c d p now)
            = { db with
                feedbacks := db.feedbacks
                  ++ [⟨db.nextFeedbackId, t, d, c, p, "new", now, none, u.id⟩]
                nextFeedbackId := db.nextFeedbackId + 1 } := by
          simp [stepDB, submit_feedback, hg]
        have h2 : stepGhost db g (.submitFeedbackA sess t c d p now) = g := rfl
        rw [h1, h2]
        exact ginv_submit db g _ rfl rfl ih
  | addResponseA sess fid content now =>
      have h2 : stepGhost db g (.addResponseA sess fid content now) = g := rfl
      rw [h2]
      rcases hg : get_current_user db sess with _ | u
      · exact ginv_same db _ g (by simp [stepDB, add_response, hg])
          (by simp [stepDB, add_response, hg]) ih
      · by_cases hr : (u.role == "support" || u.role == "admin") = true
        · exact ginv_same db _ g (by simp [stepDB, add_response, hg, hr])
            (by simp [stepDB, add_response, hg, hr]) ih
        · exact ginv_same db _ g (by simp [stepDB, add_response, hg, hr])
            (by simp [stepDB, add_response, hg, hr]) ih
  | updateStatusA sess fid st now =>
      rcases hg : get_current_user db sess with _ | u
      · have h1 : stepDB db (.updateStatusA sess fid st now) = db := by
          simp [stepDB, update_status, hg]
        have h2 : stepGhost db g (.updateStatusA sess fid st now) = g := by
          simp [stepGhost, hg]
        rw [h1, h2]
        exact ih
      · by_cases hr : (u.role == "support" || u.role == "admin") = true
        · have h1 : stepDB db (.updateStatusA sess fid st now)
              = { db with
                  feedbacks := updateFirst (fun f => f.id == fid)
                    (fun f => { f with
                                status := st
                                closed_at := if st == "closed" then some now else f.closed_at })
                    db.feedbacks } := by
            simp [stepDB, update_status, hg, hr]
          have h2 : stepGhost db g (.updateStatusA sess fid st now)
              = (if ((db.feedbacks.any (fun f => f.id == fid)) && (st == "closed")) = true
                 then fid :: g else g) := by
            simp [stepGhost, hg, hr]
          rw [h1, h2]
          exact ginv_update db g fid st now ih
        · have h1 : stepDB db (.updateStatusA sess fid st now) = db := by
            simp [stepDB, update_status, hg, hr]
          have h2 : stepGhost db g (.updateStatusA sess fid st now) = g := by
            simp [stepGhost, hg, hr]
          rw [h1, h2]
          exact ih
  | healthA => exact ih
  | indexA sess => exact ih
  | loginPageA => exact ih
  | loginPostA username password => exact ih
  | logoutA => exact ih
  | newFeedbackPageA sess => exact ih
  | feedbackListA sess category status_filter => exact ih
  | feedbackDetailA sess fid => exact ih
  | dashboardA sess => exact ih

theorem ginv_reachable (db : DB) (g : List Nat) (h : GReachable db g) : GInv db g := by
  induction h with
  | seed rnd now => exact ginv_seed rnd now
  | step a _ ih => exact ginv_step _ _ a ih

/-- C3 counterexample: the claim says closed_at is non-null whenever the status
is currently closed.  The seed assigns each demo feedback a random status —
`closed` included — without ever setting `closed_at`, so right after a first
boot whose randomness drew `closed` the store holds a feedback with status
closed and NULL closed_at. -/
theorem C3_counterexample :
    GReachable (startup_event DB.empty rndClosed 0) [] ∧
    ((startup_event DB.empty rndClosed 0).feedbacks.getD 3 dfltFeedback).status = "closed" ∧
    ((startup_event DB.empty rndClosed 0).feedbacks.getD 3 dfltFeedback).closed_at = none :=
  ⟨GReachable.seed rndClosed 0, by decide, by decide⟩

/-- C3 (amended): in every reachable store, a feedback's closed_at is non-null
if and only if its status was at some point set to closed by an authorized
status-update request (the ghost history of `GReachable`); rows that merely
carry status closed from the seed have NULL closed_at, and closed_at survives
later re-opens exactly as the history does. -/
theorem C3_closed_at_iff_ever_closed (db : DB) (g : List Nat) (h : GReachable db g) :
    ∀ fb ∈ db.feedbacks, (fb.closed_at ≠ none ↔ fb.id ∈ g) :=
  (ginv_reachable db g h).1

theorem C3_closed_at_iff_ever_closed_witness :
    ((startup_event DB.empty rnd0 0).feedbacks.getD 3 dfltFeedback).closed_at ≠ none ↔
      ((startup_event DB.empty rnd0 0).feedbacks.getD 3 dfltFeedback).id ∈ ([] : List Nat) :=
  C3_closed_at_iff_ever_closed _ [] (GReachable.seed rnd0 0) _ (by decide)
